import Mathlib

/- Shallow embedding of the spatial interpolation program (src/main.py):
   grid assembly from point samples (shapefile_to_grid), Thiessen
   (nearest-neighbour) resampling, bilinear resampling, and IDW gap
   filling. A grid is a row-major list of rows; the missing sentinel
   (NaN in the source) is modelled by `none`, so NaN-propagating float
   arithmetic becomes Option-propagating arithmetic, and exact
   rational/real arithmetic stands in for float arithmetic. -/

/-- Grid of scalar cells, row-major; `none` is the missing sentinel (NaN). -/
abbrev Grid := List (List (Option ℝ))

/-- Read cell (i, j); out-of-range reads default to the missing sentinel. -/
def cell (Z : Grid) (i j : ℕ) : Option ℝ :=
  (Z.getD i []).getD j none

/-- Number of columns (`Z_in.shape[1]` for a rectangular grid). -/
def gridCols (Z : Grid) : ℕ := (Z.headD []).length

/-- The grid is rectangular: every row has `gridCols` entries (a numpy 2-D array). -/
def Rectangular (Z : Grid) : Prop := ∀ r ∈ Z, r.length = gridCols Z

/-- Write value v at cell (i, j) (the in-place update `Z[i, j] = v`, modelled functionally). -/
def setCell (Z : Grid) (i j : ℕ) (v : Option ℝ) : Grid :=
  Z.set i ((Z.getD i []).set j v)

/-- Python `int(...)` on a real number: truncation toward zero. -/
def pyInt (x : ℚ) : ℤ := if 0 ≤ x then ⌊x⌋ else ⌈x⌉

/-- Python `round(...)`: round half to even (banker's rounding). -/
def pyRound (x : ℚ) : ℤ :=
  if x - ⌊x⌋ < 1/2 then ⌊x⌋
  else if x - ⌊x⌋ > 1/2 then ⌊x⌋ + 1
  else if ⌊x⌋ % 2 = 0 then ⌊x⌋ else ⌊x⌋ + 1

/-- Clamped nearest-neighbour source index of thiessen_interpolation:
`min(max(int(round(i_out / factor)), 0), M - 1)`. -/
def thiessenIdx (M : ℕ) (factor : ℚ) (i_out : ℕ) : ℤ :=
  min (max (pyRound ((i_out : ℚ) / factor)) 0) ((M : ℤ) - 1)

/-- thiessen_interpolation from src/main.py: the output has
`int(M * factor)` rows and `int(N * factor)` columns, and each output cell
copies the nearest (rounded, clamped) input cell. -/
def thiessen_interpolation (Z_in : Grid) (factor : ℚ) : Grid :=
  (List.range (pyInt ((Z_in.length : ℚ) * factor)).toNat).map fun i_out =>
    (List.range (pyInt ((gridCols Z_in : ℚ) * factor)).toNat).map fun j_out =>
      cell Z_in (thiessenIdx Z_in.length factor i_out).toNat
        (thiessenIdx (gridCols Z_in) factor j_out).toNat

/-- Multiplication of a possibly-missing sample by a finite weight; the
missing sentinel contaminates the product (IEEE-754 NaN propagation). -/
def wmulCell (w : ℝ) (s : Option ℝ) : Option ℝ := s.map fun v => w * v

/-- Addition of two possibly-missing terms; the missing sentinel
contaminates the sum (IEEE-754 NaN propagation). -/
def addCell (a b : Option ℝ) : Option ℝ :=
  match a, b with
  | some x, some y => some (x + y)
  | _, _ => none

/-- Lower corner index of bilinear_interpolation: `i0 = floor(i_out / factor)`. -/
def bilinearIdx0 (factor : ℚ) (i_out : ℕ) : ℤ := ⌊(i_out : ℚ) / factor⌋

/-- Upper corner index of bilinear_interpolation: `i1 = min(i0 + 1, M - 1)`. -/
def bilinearIdx1 (M : ℕ) (factor : ℚ) (i_out : ℕ) : ℤ :=
  min (bilinearIdx0 factor i_out + 1) ((M : ℤ) - 1)

/-- One output cell of bilinear_interpolation: the weighted sum of the four
corner samples with weights (1-a)(1-b), a(1-b), (1-a)b, ab. -/
noncomputable def bilinearCell (Z_in : Grid) (factor : ℚ) (i_out j_out : ℕ) : Option ℝ :=
  let i0 := bilinearIdx0 factor i_out
  let j0 := bilinearIdx0 factor j_out
  let i1 := bilinearIdx1 Z_in.length factor i_out
  let j1 := bilinearIdx1 (gridCols Z_in) factor j_out
  let a : ℚ := (i_out : ℚ) / factor - i0
  let b : ℚ := (j_out : ℚ) / factor - j0
  addCell (addCell (addCell
    (wmulCell (((1 - a) * (1 - b) : ℚ) : ℝ) (cell Z_in i0.toNat j0.toNat))
    (wmulCell ((a * (1 - b) : ℚ) : ℝ) (cell Z_in i1.toNat j0.toNat)))
    (wmulCell (((1 - a) * b : ℚ) : ℝ) (cell Z_in i0.toNat j1.toNat)))
    (wmulCell ((a * b : ℚ) : ℝ) (cell Z_in i1.toNat j1.toNat))

/-- bilinear_interpolation from src/main.py. -/
noncomputable def bilinear_interpolation (Z_in : Grid) (factor : ℚ) : Grid :=
  (List.range (pyInt ((Z_in.length : ℚ) * factor)).toNat).map fun i_out =>
    (List.range (pyInt ((gridCols Z_in : ℚ) * factor)).toNat).map fun j_out =>
      bilinearCell Z_in factor i_out j_out

/-- All grid positions (i, j) with i < M, j < N, in row-major order
(the order of the double loop in idw_interpolation). -/
def allPositions (M N : ℕ) : List (ℕ × ℕ) :=
  (List.range M).flatMap fun i => (List.range N).map fun j => (i, j)

/-- Squared Euclidean distance between two grid index positions. -/
def sqdist (p q : ℕ × ℕ) : ℚ :=
  ((p.1 : ℚ) - (q.1 : ℚ)) ^ 2 + ((p.2 : ℚ) - (q.2 : ℚ)) ^ 2

/-- Insert a position into a list kept sorted by ascending distance to the
query point q (comparisons by squared distance, which orders identically). -/
def insertNear (q p : ℕ × ℕ) : List (ℕ × ℕ) → List (ℕ × ℕ)
  | [] => [p]
  | a :: rest =>
    if sqdist p q ≤ sqdist a q then p :: a :: rest else a :: insertNear q p rest

/-- Sort positions by ascending Euclidean distance to q: the order in which
the KD-tree query returns neighbours. -/
def sortNear (q : ℕ × ℕ) : List (ℕ × ℕ) → List (ℕ × ℕ)
  | [] => []
  | p :: rest => insertNear q p (sortNear q rest)

/-- Row-major list of the known (non-missing) cell positions of the grid
(the `known` list of idw_interpolation). -/
def knownCells (Z : Grid) : List (ℕ × ℕ) :=
  (allPositions Z.length (gridCols Z)).filter fun p => (cell Z p.1 p.2).isSome

/-- The grid has at least one in-range missing cell, so the filling loop
issues at least one KD-tree query. -/
def hasMissing (Z : Grid) : Prop :=
  ∃ p ∈ allPositions Z.length (gridCols Z), (cell Z p.1 p.2).isNone

instance hasMissingDecidable (Z : Grid) : Decidable (hasMissing Z) := by
  unfold hasMissing
  infer_instance

/-- The IDW estimate computed for one missing cell p: take the
`min(k, len(known))` nearest known cells, floor each Euclidean distance at
1e-12, weight by `1 / d ^ power`, and return the weighted average
`dot(w, values) / sum(w)` of the neighbour values. This is the per-cell
computation of the regime `min(k, len(known)) >= 2`, where the query
returns distance and index arrays; for smaller values idw_interpolation
errors before any estimate is computed (see InterpError). -/
noncomputable def idwEstimate (Z_in : Grid) (k : ℕ) (power : ℝ) (p : ℕ × ℕ) : ℝ :=
  let known := knownCells Z_in
  let nbrs := (sortNear p known).take (min k known.length)
  let w := nbrs.map fun q =>
    1 / (max (Real.sqrt ((sqdist q p : ℚ) : ℝ)) (1 / 10 ^ 12)) ^ power
  let vals := nbrs.map fun q => (cell Z_in q.1 q.2).getD 0
  (List.zipWith (fun a b => a * b) w vals).sum / w.sum

/-- The gap-filling double loop of idw_interpolation: visit the positions in
order, replace a cell that is currently missing by its estimate, leave all
other cells alone (explicit state passing for the in-place update). -/
noncomputable def fillLoop (est : ℕ × ℕ → ℝ) : List (ℕ × ℕ) → Grid → Grid
  | [], G => G
  | p :: L, G =>
    fillLoop est L (if (cell G p.1 p.2).isNone then setCell G p.1 p.2 (some (est p)) else G)

/-- The whole filling pass of idw_interpolation: start from a copy of the
input and fill every (currently) missing cell with its estimate, the
estimates being functions of the input grid only. -/
noncomputable def idwFill (Z_in : Grid) (k : ℕ) (power : ℝ) : Grid :=
  fillLoop (idwEstimate Z_in k power) (allPositions Z_in.length (gridCols Z_in)) Z_in

/-- Error outcomes of the gap filler. insufficientKnownData: the KD-tree
build rejects an empty point list. neighborQueryFailure: there is a
missing cell to fill but `min(k, len(known)) <= 1`, so the per-cell lookup
fails: a request for zero neighbours is rejected by the query itself, and
for `min(k, len(known)) = 1` the query squeezes its distance and index
results to scalars, so iterating the neighbour indexes raises. -/
inductive InterpError where
  | insufficientKnownData
  | neighborQueryFailure
deriving DecidableEq

/-- idw_interpolation from src/main.py. Building the KD-tree over an empty
known set raises before any cell is filled (insufficientKnownData). When a
missing cell exists and `min(k, len(known)) <= 1`, the first per-cell
query (or the iteration over its squeezed scalar result) raises, again
before any grid is returned (neighborQueryFailure). Otherwise every query
returns proper arrays and the filled grid is returned. -/
noncomputable def idw_interpolation (Z_in : Grid) (k : ℕ) (power : ℝ) :
    Except InterpError Grid :=
  if knownCells Z_in = [] then .error .insufficientKnownData
  else if min k (knownCells Z_in).length ≤ 1 ∧ hasMissing Z_in then
    .error .neighborQueryFailure
  else .ok (idwFill Z_in k power)

/-- Ascending list of the distinct values of l (`np.sort` of `.unique()`). -/
def sortedUnique (l : List ℚ) : List ℚ := l.toFinset.sort (· ≤ ·)

/-- The (row, column) cell a sample is written to: the positions of its y
and x coordinates on the sorted unique axes (the y_to_i / x_to_j dicts). -/
def sampleTarget (xs ys : List ℚ) (s : ℚ × ℚ × ℝ) : ℕ × ℕ :=
  (ys.indexOf s.2.1, xs.indexOf s.1)

/-- shapefile_to_grid from src/main.py, with the shapefile already read
into an in-memory list of (x, y, z) samples in file order (the geopandas
I/O itself is an external collaborator). -/
def shapefile_to_grid (samples : List (ℚ × ℚ × ℝ)) : Grid × List ℚ × List ℚ :=
  let xs := sortedUnique (samples.map fun s => s.1)
  let ys := sortedUnique (samples.map fun s => s.2.1)
  let Z0 : Grid := List.replicate ys.length (List.replicate xs.length none)
  let Z := samples.foldl
    (fun Z s => setCell Z (sampleTarget xs ys s).1 (sampleTarget xs ys s).2 (some s.2.2)) Z0
  (Z, xs, ys)

/-- The value of the last sample written to cell (i, j), if any: the
last-write-wins policy of the assembly loop, stated independently. -/
def lastWriteAt (xs ys : List ℚ) (samples : List (ℚ × ℚ × ℝ)) (i j : ℕ) : Option ℝ :=
  samples.foldl (fun acc s => if sampleTarget xs ys s = (i, j) then some s.2.2 else acc) none

/-- The 2x2 example grid [[1, NaN], [3, 4]] of the IDW scenario. -/
def exampleGrid : Grid := [[some 1, none], [some 3, some 4]]

/-- The 3x3 example grid [[1,2,3],[4,5,6],[7,8,9]] of the boundary-safety scenario. -/
def exampleGrid3 : Grid :=
  [[some 1, some 2, some 3], [some 4, some 5, some 6], [some 7, some 8, some 9]]

/- ------------------------------------------------------------------ -/
/- Helper lemmas about list and grid access.                          -/
/- ------------------------------------------------------------------ -/

lemma getD_set_self {α : Type} (l : List α) (i : ℕ) (a d : α) (h : i < l.length) :
    (l.set i a).getD i d = a := by
  rw [List.getD_eq_getElem?_getD, List.getElem?_set_self h, Option.getD_some]

lemma getD_set_ne {α : Type} (l : List α) {i i' : ℕ} (a d : α) (h : i ≠ i') :
    (l.set i a).getD i' d = l.getD i' d := by
  rw [List.getD_eq_getElem?_getD, List.getElem?_set_ne h, ← List.getD_eq_getElem?_getD]

lemma getD_map_range {α : Type} (f : ℕ → α) (d : α) {n i : ℕ} (h : i < n) :
    ((List.range n).map f).getD i d = f i := by
  rw [List.getD_eq_getElem?_getD, List.getElem?_map, List.getElem?_range h, Option.map_some',
    Option.getD_some]

lemma length_setCell (Z : Grid) (i j : ℕ) (v : Option ℝ) :
    (setCell Z i j v).length = Z.length :=
  List.length_set ..

lemma rowLen_setCell (Z : Grid) (i j i' : ℕ) (v : Option ℝ) :
    ((setCell Z i j v).getD i' []).length = (Z.getD i' []).length := by
  unfold setCell
  by_cases h : i = i'
  · subst h
    by_cases hl : i < Z.length
    · rw [getD_set_self _ _ _ _ hl, List.length_set]
    · rw [List.set_eq_of_length_le (le_of_not_lt hl)]
  · rw [getD_set_ne _ _ _ h]

lemma cell_setCell_self (Z : Grid) {i j : ℕ} (v : Option ℝ)
    (hi : i < Z.length) (hj : j < (Z.getD i []).length) :
    cell (setCell Z i j v) i j = v := by
  unfold cell setCell
  rw [getD_set_self _ _ _ _ hi, getD_set_self _ _ _ _ hj]

lemma cell_setCell_ne (Z : Grid) {i j i' j' : ℕ} (v : Option ℝ)
    (h : (i, j) ≠ (i', j')) :
    cell (setCell Z i j v) i' j' = cell Z i' j' := by
  unfold cell setCell
  by_cases hi : i = i'
  · subst hi
    have hj : j ≠ j' := fun hj => h (by rw [hj])
    by_cases hl : i < Z.length
    · rw [getD_set_self _ _ _ _ hl, getD_set_ne _ _ _ hj]
    · rw [List.set_eq_of_length_le (le_of_not_lt hl)]
  · rw [getD_set_ne _ _ _ hi]

lemma mem_allPositions {M N i j : ℕ} : (i, j) ∈ allPositions M N ↔ i < M ∧ j < N := by
  simp only [allPositions, List.mem_flatMap, List.mem_map, List.mem_range, Prod.mk.injEq]
  constructor
  · rintro ⟨a, ha, b, hb, rfl, rfl⟩
    exact ⟨ha, hb⟩
  · rintro ⟨hi, hj⟩
    exact ⟨i, hi, j, hj, rfl, rfl⟩

lemma fillLoop_length (est : ℕ × ℕ → ℝ) (L : List (ℕ × ℕ)) :
    ∀ G : Grid, (fillLoop est L G).length = G.length := by
  induction L with
  | nil => intro G; rfl
  | cons p L ih =>
    intro G
    rw [fillLoop, ih]
    split
    · exact length_setCell ..
    · rfl

lemma fillLoop_rowLen (est : ℕ × ℕ → ℝ) (L : List (ℕ × ℕ)) :
    ∀ (G : Grid) (i : ℕ), ((fillLoop est L G).getD i []).length = (G.getD i []).length := by
  induction L with
  | nil => intro G i; rfl
  | cons p L ih =>
    intro G i
    rw [fillLoop, ih]
    split
    · exact rowLen_setCell ..
    · rfl

lemma fillLoop_preserves_some (est : ℕ × ℕ → ℝ) (L : List (ℕ × ℕ)) :
    ∀ (G : Grid) (i j : ℕ), (cell G i j).isSome →
      cell (fillLoop est L G) i j = cell G i j := by
  induction L with
  | nil => intro G i j _; rfl
  | cons p L ih =>
    intro G i j h
    rw [fillLoop]
    by_cases hc : (cell G p.1 p.2).isNone
    · rw [if_pos hc]
      have hne : (p.1, p.2) ≠ (i, j) := by
        intro he
        rw [Prod.mk.injEq] at he
        rw [he.1, he.2] at hc
        rw [Option.isNone_iff_eq_none] at hc
        rw [hc] at h
        simp at h
      rw [ih _ _ _ (by rw [cell_setCell_ne _ _ hne]; exact h), cell_setCell_ne _ _ hne]
    · rw [if_neg hc]
      exact ih _ _ _ h

lemma fillLoop_cell_not_mem (est : ℕ × ℕ → ℝ) (L : List (ℕ × ℕ)) :
    ∀ (G : Grid) (i j : ℕ), (i, j) ∉ L →
      cell (fillLoop est L G) i j = cell G i j := by
  induction L with
  | nil => intro G i j _; rfl
  | cons p L ih =>
    intro G i j hq
    rw [fillLoop]
    have hqp : p ≠ (i, j) := fun h => hq (h ▸ List.mem_cons_self p L)
    have hqL : (i, j) ∉ L := fun h => hq (List.mem_cons_of_mem _ h)
    rw [ih _ _ _ hqL]
    split
    · exact cell_setCell_ne _ _ (by rwa [Prod.mk.eta])
    · rfl

lemma fillLoop_cell_mem (est : ℕ × ℕ → ℝ) (L : List (ℕ × ℕ)) :
    ∀ (G : Grid) (i j : ℕ), (i, j) ∈ L → i < G.length → j < (G.getD i []).length →
      cell (fillLoop est L G) i j = some ((cell G i j).getD (est (i, j))) := by
  induction L with
  | nil => intro G i j h _ _; cases h
  | cons p L ih =>
    intro G i j hmem hi hj
    obtain ⟨a, b⟩ := p
    rw [fillLoop]
    by_cases hpq : (a, b) = (i, j)
    · rw [Prod.mk.injEq] at hpq
      obtain ⟨rfl, rfl⟩ := hpq
      cases hcc : cell G a b with
      | none =>
        show cell (fillLoop est L (setCell G a b (some (est (a, b))))) a b
          = some (Option.getD none (est (a, b)))
        have hset : cell (setCell G a b (some (est (a, b)))) a b = some (est (a, b)) :=
          cell_setCell_self _ _ hi hj
        rw [fillLoop_preserves_some _ _ _ _ _ (by rw [hset]; rfl), hset]
        rfl
      | some v =>
        show cell (fillLoop est L G) a b = some (Option.getD (some v) (est (a, b)))
        rw [fillLoop_preserves_some _ _ _ _ _ (by rw [hcc]; rfl)]
        rw [hcc]
        rfl
    · have hmem' : (i, j) ∈ L := by
        rcases List.mem_cons.mp hmem with h | h
        · exact absurd h.symm hpq
        · exact h
      split
      · rw [ih _ _ _ hmem' (by rw [length_setCell]; exact hi)
          (by rw [rowLen_setCell]; exact hj),
          cell_setCell_ne _ _ hpq]
      · exact ih _ _ _ hmem' hi hj

lemma fillLoop_id (est : ℕ × ℕ → ℝ) (L : List (ℕ × ℕ)) :
    ∀ G : Grid, (∀ p ∈ L, (cell G p.1 p.2).isSome) → fillLoop est L G = G := by
  induction L with
  | nil => intro G _; rfl
  | cons p L ih =>
    intro G h
    rw [fillLoop, if_neg, ih _ fun q hq => h q (List.mem_cons_of_mem _ hq)]
    intro hc
    have := h p (List.mem_cons_self p L)
    rw [Option.isNone_iff_eq_none] at hc
    rw [hc] at this
    simp at this

lemma rowLen_of_rect {Z : Grid} (hrect : Rectangular Z) {i : ℕ} (hi : i < Z.length) :
    (Z.getD i []).length = gridCols Z := by
  rw [List.getD_eq_getElem _ _ hi]
  exact hrect _ (List.getElem_mem _)

lemma idwFill_cell (Z : Grid) (k : ℕ) (power : ℝ) (hrect : Rectangular Z) {i j : ℕ}
    (hi : i < Z.length) (hj : j < gridCols Z) :
    cell (idwFill Z k power) i j
      = some ((cell Z i j).getD (idwEstimate Z k power (i, j))) := by
  have hmem : (i, j) ∈ allPositions Z.length (gridCols Z) := mem_allPositions.mpr ⟨hi, hj⟩
  exact fillLoop_cell_mem _ _ _ _ _ hmem hi (by rw [rowLen_of_rect hrect hi]; exact hj)

lemma not_hasMissing_of_all_some {Z : Grid}
    (hall : ∀ p ∈ allPositions Z.length (gridCols Z), (cell Z p.1 p.2).isSome) :
    ¬ hasMissing Z := by
  intro hm
  unfold hasMissing at hm
  obtain ⟨p, hpmem, hpnone⟩ := hm
  have hs := hall p hpmem
  rw [Option.isNone_iff_eq_none] at hpnone
  rw [hpnone] at hs
  simp at hs

lemma idw_ok_eq {Z : Grid} {k : ℕ} {power : ℝ} {G : Grid}
    (h : idw_interpolation Z k power = Except.ok G) : G = idwFill Z k power := by
  rw [idw_interpolation] at h
  by_cases h1 : knownCells Z = []
  · rw [if_pos h1] at h
    exact Except.noConfusion h
  · rw [if_neg h1] at h
    by_cases h2 : min k (knownCells Z).length ≤ 1 ∧ hasMissing Z
    · rw [if_pos h2] at h
      exact Except.noConfusion h
    · rw [if_neg h2] at h
      injection h with h'
      exact h'.symm

lemma addCell_none_right (a : Option ℝ) : addCell a none = none := by
  cases a <;> rfl

lemma addCell_none_left (b : Option ℝ) : addCell none b = none := rfl

lemma wmulCell_none (w : ℝ) : wmulCell w none = none := rfl

/- ------------------------------------------------------------------ -/
/- Claim theorems.                                                    -/
/- ------------------------------------------------------------------ -/

/-- C5: calling idw_interpolation on a grid with zero known (non-missing)
cells signals the distinguishable insufficient-known-data error outcome and
produces no estimate (no grid is returned). -/
theorem C5_idw_all_missing_errors (Z : Grid) (k : ℕ) (power : ℝ)
    (h : knownCells Z = []) :
    idw_interpolation Z k power = Except.error InterpError.insufficientKnownData := by
  rw [idw_interpolation, if_pos h]

theorem C5_witness :
    knownCells [[none, none], [none, none]] = [] ∧
      idw_interpolation [[none, none], [none, none]] 4 2
        = Except.error InterpError.insufficientKnownData :=
  ⟨by decide, C5_idw_all_missing_errors _ 4 2 (by decide)⟩

/-- C6 (amended): on every grid with at least one known cell, whenever
idw_interpolation returns a grid, the value of every non-missing cell is
unchanged in it; and on such a grid with no missing cells the call
returns a grid identical to the input for all k and power (the loop never
queries). (The counterexample shows the original claim fails on grids
with zero known cells, e.g. the empty grid, where the code raises instead
of returning the input; the call also raises without output when
min(k, number of known cells) <= 1 and a missing cell exists.) -/
theorem C6_idw_preserves_known (Z : Grid) (k : ℕ) (power : ℝ)
    (hknown : knownCells Z ≠ []) :
    (∀ G : Grid, idw_interpolation Z k power = Except.ok G →
      ∀ i j : ℕ, (cell Z i j).isSome → cell G i j = cell Z i j) ∧
    ((∀ p ∈ allPositions Z.length (gridCols Z), (cell Z p.1 p.2).isSome) →
      idw_interpolation Z k power = Except.ok Z) := by
  constructor
  · intro G hG i j h
    rw [idw_ok_eq hG]
    exact fillLoop_preserves_some _ _ _ _ _ h
  · intro hall
    rw [idw_interpolation, if_neg hknown,
      if_neg (fun hc => not_hasMissing_of_all_some hall hc.2), idwFill,
      fillLoop_id _ _ _ hall]

theorem C6_witness :
    idw_interpolation exampleGrid3 2 2 = Except.ok exampleGrid3 :=
  (C6_idw_preserves_known exampleGrid3 2 2 (by decide)).2 (by decide)

/-- C6 counterexample: the empty grid has no missing cells, yet
idw_interpolation errors on it (the KD-tree build raises on an empty known
set) instead of returning a grid identical to the input. -/
theorem C6_counterexample :
    idw_interpolation ([] : Grid) 4 2 = Except.error InterpError.insufficientKnownData ∧
      idw_interpolation ([] : Grid) 4 2 ≠ Except.ok ([] : Grid) := by
  have h : idw_interpolation ([] : Grid) 4 2
      = Except.error InterpError.insufficientKnownData := by
    rw [idw_interpolation, if_pos (show knownCells ([] : Grid) = [] from rfl)]
  refine ⟨h, fun hc => ?_⟩
  rw [h] at hc
  exact Except.noConfusion hc

/-- C3 counterexample: the grid [[1, NaN]] has a known cell and k = 1 and
power = 1 are positive, yet idw_interpolation errors instead of
succeeding with a fully filled grid: with min(k, number of known cells)
equal to 1 the query squeezes its results to scalars and the iteration
over the neighbour indexes raises. -/
theorem C3_counterexample :
    knownCells [[some 1, none]] ≠ [] ∧
      idw_interpolation [[some 1, none]] 1 1
        = Except.error InterpError.neighborQueryFailure := by
  refine ⟨by decide, ?_⟩
  rw [idw_interpolation, if_neg (by decide), if_pos ⟨by decide, by decide⟩]

/-- C3 (amended): on every rectangular grid with at least one known cell,
for every positive k and positive power such that min(k, number of known
cells) is at least 2 or the grid has no missing cells, idw_interpolation
succeeds and returns a grid of identical shape in which every missing
cell carries the inverse-distance-weighted estimate over the
min(k, number-of-known-cells) nearest known cells (idwEstimate), so no
missing cells remain. -/
theorem C3_idw_total_fill (Z : Grid) (k : ℕ) (power : ℝ)
    (hrect : Rectangular Z) (hknown : knownCells Z ≠ []) (hk : 0 < k) (hp : 0 < power)
    (hquery : 2 ≤ min k (knownCells Z).length ∨ ¬ hasMissing Z) :
    idw_interpolation Z k power = Except.ok (idwFill Z k power) ∧
    (idwFill Z k power).length = Z.length ∧
    (∀ i : ℕ, ((idwFill Z k power).getD i []).length = (Z.getD i []).length) ∧
    (∀ i j : ℕ, i < Z.length → j < gridCols Z →
      cell (idwFill Z k power) i j
        = some ((cell Z i j).getD (idwEstimate Z k power (i, j)))) ∧
    (∀ i j : ℕ, i < Z.length → j < gridCols Z → (cell (idwFill Z k power) i j).isSome) := by
  have hguard : ¬(min k (knownCells Z).length ≤ 1 ∧ hasMissing Z) := by
    rcases hquery with h2 | hnm
    · rintro ⟨hle, _⟩
      omega
    · rintro ⟨_, hm⟩
      exact hnm hm
  exact ⟨by rw [idw_interpolation, if_neg hknown, if_neg hguard],
    fillLoop_length _ _ _,
    fun i => fillLoop_rowLen _ _ _ _,
    fun i j hi hj => idwFill_cell Z k power hrect hi hj,
    fun i j hi hj => by rw [idwFill_cell Z k power hrect hi hj]; rfl⟩

theorem C3_witness :
    idw_interpolation [[some 1, none, some 4]] 2 1
        = Except.ok (idwFill [[some 1, none, some 4]] 2 1) ∧
      (cell (idwFill [[some 1, none, some 4]] 2 1) 0 1).isSome := by
  have h := C3_idw_total_fill [[some 1, none, some 4]] 2 1
    (by unfold Rectangular; decide) (by decide) (by decide) (by norm_num)
    (Or.inl (by decide))
  exact ⟨h.1, h.2.2.2.2 0 1 (by decide) (by decide)⟩

/-- C10: whenever idw_interpolation returns a grid, each filled cell of
that grid is a function of only the original grid's known cells and the
parameters (idwEstimate of the input grid, whose neighbour index and
value lists are built from the input before any cell is filled), and
running the filling loop over any permutation of the visit order
reproduces the returned grid cell for cell: previously filled cells never
feed later estimates. -/
theorem C10_idw_order_independent (Z : Grid) (k : ℕ) (power : ℝ)
    (hrect : Rectangular Z) :
    (∀ G : Grid, idw_interpolation Z k power = Except.ok G →
      ∀ i j : ℕ, i < Z.length → j < gridCols Z → cell Z i j = none →
        cell G i j = some (idwEstimate Z k power (i, j))) ∧
    (∀ G : Grid, idw_interpolation Z k power = Except.ok G →
      ∀ L : List (ℕ × ℕ), L.Perm (allPositions Z.length (gridCols Z)) →
        ∀ i j : ℕ, i < Z.length → j < gridCols Z →
          cell (fillLoop (idwEstimate Z k power) L Z) i j = cell G i j) := by
  constructor
  · intro G hG i j hi hj hnone
    rw [idw_ok_eq hG, idwFill_cell Z k power hrect hi hj, hnone]
    rfl
  · intro G hG L hperm i j hi hj
    rw [idw_ok_eq hG]
    have hmem : (i, j) ∈ L :=
      hperm.mem_iff.mpr (mem_allPositions.mpr ⟨hi, hj⟩)
    have hrow : j < (Z.getD i []).length := by
      rw [rowLen_of_rect hrect hi]; exact hj
    rw [fillLoop_cell_mem _ _ _ _ _ hmem hi hrow,
      idwFill_cell Z k power hrect hi hj]

theorem C10_witness :
    cell (fillLoop (idwEstimate [[some 1, none, some 4]] 2 1) [(0, 2), (0, 1), (0, 0)]
        [[some 1, none, some 4]]) 0 1
      = cell (idwFill [[some 1, none, some 4]] 2 1) 0 1 :=
  (C10_idw_order_independent [[some 1, none, some 4]] 2 1
      (by unfold Rectangular; decide)).2
    (idwFill [[some 1, none, some 4]] 2 1)
    (by rw [idw_interpolation, if_neg (by decide), if_neg (by decide)])
    [(0, 2), (0, 1), (0, 0)] (by decide) 0 1 (by decide) (by decide)

/-- C2: for every grid of shape (M, N) and every factor f > 0, both
thiessen_interpolation and bilinear_interpolation return a grid of shape
(floor(M * f), floor(N * f)). -/
theorem C2_resampler_shape (Z : Grid) (factor : ℚ) (hf : 0 < factor) :
    (thiessen_interpolation Z factor).length = (⌊(Z.length : ℚ) * factor⌋).toNat ∧
    (∀ r ∈ thiessen_interpolation Z factor,
      r.length = (⌊(gridCols Z : ℚ) * factor⌋).toNat) ∧
    (bilinear_interpolation Z factor).length = (⌊(Z.length : ℚ) * factor⌋).toNat ∧
    (∀ r ∈ bilinear_interpolation Z factor,
      r.length = (⌊(gridCols Z : ℚ) * factor⌋).toNat) := by
  have hM : pyInt ((Z.length : ℚ) * factor) = ⌊(Z.length : ℚ) * factor⌋ := by
    rw [pyInt, if_pos (mul_nonneg (Nat.cast_nonneg _) hf.le)]
  have hN : pyInt ((gridCols Z : ℚ) * factor) = ⌊(gridCols Z : ℚ) * factor⌋ := by
    rw [pyInt, if_pos (mul_nonneg (Nat.cast_nonneg _) hf.le)]
  refine ⟨?_, ?_, ?_, ?_⟩
  · rw [thiessen_interpolation, List.length_map, List.length_range, hM]
  · intro r hr
    rw [thiessen_interpolation] at hr
    obtain ⟨i, _, rfl⟩ := List.mem_map.mp hr
    rw [List.length_map, List.length_range, hN]
  · rw [bilinear_interpolation, List.length_map, List.length_range, hM]
  · intro r hr
    rw [bilinear_interpolation] at hr
    obtain ⟨i, _, rfl⟩ := List.mem_map.mp hr
    rw [List.length_map, List.length_range, hN]

theorem C2_witness :
    (thiessen_interpolation [[some (1 : ℝ)]] 2).length
      = (⌊(([[some (1 : ℝ)]] : Grid).length : ℚ) * 2⌋).toNat :=
  (C2_resampler_shape [[some 1]] 2 (by norm_num)).1

/-- C4 counterexample: a resampler called with the non-positive factor 0
returns an empty grid as a normal result, and the gap filler called with
k = 0 and power = 0 returns a grid as a normal result: no call is rejected
with a distinguishable invalid-parameter outcome. -/
theorem C4_counterexample :
    thiessen_interpolation [[some 1]] 0 = [] ∧
      bilinear_interpolation [[some 1]] 0 = [] ∧
      idw_interpolation [[some 1]] 0 0 = Except.ok [[some 1]] := by
  refine ⟨?_, ?_, ?_⟩
  · rw [thiessen_interpolation]
    simp [pyInt]
  · rw [bilinear_interpolation]
    simp [pyInt]
  · rw [idw_interpolation, if_neg (by decide), if_neg (by decide), idwFill,
      fillLoop_id _ _ _ (by decide)]

/-- C4 (amended): no parameter validation is performed anywhere: both
resamplers called with factor 0 on any grid return the empty grid as a
normal result (for 0 < factor < 1/M the result is likewise a silently
truncated grid), and the gap filler accepts non-positive k and power,
returning its input unchanged whenever the grid is complete. No
invalid-parameter error outcome exists in the code. -/
theorem C4_no_validation (Z : Grid) :
    thiessen_interpolation Z 0 = [] ∧ bilinear_interpolation Z 0 = [] ∧
      (knownCells Z ≠ [] →
        (∀ p ∈ allPositions Z.length (gridCols Z), (cell Z p.1 p.2).isSome) →
        idw_interpolation Z 0 0 = Except.ok Z) := by
  refine ⟨?_, ?_, fun hk hall => ?_⟩
  · rw [thiessen_interpolation]
    simp [pyInt]
  · rw [bilinear_interpolation]
    simp [pyInt]
  · rw [idw_interpolation, if_neg hk,
      if_neg (fun hc => not_hasMissing_of_all_some hall hc.2), idwFill,
      fillLoop_id _ _ _ hall]

theorem C4_witness :
    thiessen_interpolation exampleGrid 0 = [] ∧
      idw_interpolation exampleGrid3 0 0 = Except.ok exampleGrid3 :=
  ⟨(C4_no_validation exampleGrid).1,
    (C4_no_validation exampleGrid3).2.2 (by decide) (by decide)⟩

/-- C7: for every grid dimension M, factor f > 0 and in-range output index,
the source indices the resamplers access (thiessenIdx for Thiessen;
bilinearIdx0 and bilinearIdx1 for bilinear) lie within [0, M-1]; and the
3x3 example grid upscaled by factor 2 yields a 6x6 output whose cell (5,5)
equals the input cell (2,2) value 9 under nearest-neighbour resampling. -/
theorem C7_boundary_safety :
    (∀ (M : ℕ) (f : ℚ) (i : ℕ), 0 < f → i < (pyInt ((M : ℚ) * f)).toNat →
      (0 ≤ thiessenIdx M f i ∧ thiessenIdx M f i ≤ (M : ℤ) - 1) ∧
      (0 ≤ bilinearIdx0 f i ∧ bilinearIdx0 f i ≤ (M : ℤ) - 1) ∧
      (0 ≤ bilinearIdx1 M f i ∧ bilinearIdx1 M f i ≤ (M : ℤ) - 1)) ∧
    (thiessen_interpolation exampleGrid3 2).length = 6 ∧
    (∀ r ∈ thiessen_interpolation exampleGrid3 2, r.length = 6) ∧
    cell (thiessen_interpolation exampleGrid3 2) 5 5 = some 9 := by
  constructor
  · intro M f i hf hi
    have hMf : (0 : ℚ) ≤ (M : ℚ) * f := mul_nonneg (Nat.cast_nonneg _) hf.le
    rw [pyInt, if_pos hMf] at hi
    have hiz : (i : ℤ) < ⌊(M : ℚ) * f⌋ := Int.lt_toNat.mp hi
    have hx : (i : ℚ) < (M : ℚ) * f := by
      have h1 : (((i : ℤ) + 1 : ℤ) : ℚ) ≤ (M : ℚ) * f := Int.le_floor.mp (by omega)
      have h2 : (i : ℚ) < (((i : ℤ) + 1 : ℤ) : ℚ) := by push_cast; linarith
      linarith
    have hM0 : 0 < M := by
      by_contra h
      push_neg at h
      have hM : M = 0 := Nat.le_zero.mp h
      rw [hM] at hx
      simp at hx
      exact absurd hx (not_lt.mpr (Nat.cast_nonneg i))
    have hM1 : (0 : ℤ) ≤ (M : ℤ) - 1 := by omega
    have hxM : (i : ℚ) / f < (M : ℚ) := by
      rw [div_lt_iff₀ hf]
      exact hx
    have hxpos : (0 : ℚ) ≤ (i : ℚ) / f := div_nonneg (Nat.cast_nonneg _) hf.le
    have hfl0 : 0 ≤ bilinearIdx0 f i := Int.floor_nonneg.mpr hxpos
    have hflM : bilinearIdx0 f i ≤ (M : ℤ) - 1 := by
      have hlt : bilinearIdx0 f i < (M : ℤ) := Int.floor_lt.mpr (by exact_mod_cast hxM)
      omega
    exact ⟨⟨le_min (le_max_right _ _) hM1, min_le_right _ _⟩,
      ⟨hfl0, hflM⟩,
      ⟨le_min (by omega) hM1, min_le_right _ _⟩⟩
  · have hM6 : (pyInt ((exampleGrid3.length : ℚ) * 2)).toNat = 6 := by
      norm_num [pyInt, exampleGrid3]
      rfl
    have hN6 : (pyInt ((gridCols exampleGrid3 : ℚ) * 2)).toNat = 6 := by
      norm_num [pyInt, gridCols, exampleGrid3]
      rfl
    refine ⟨?_, ?_, ?_⟩
    · rw [thiessen_interpolation, List.length_map, List.length_range, hM6]
    · intro r hr
      rw [thiessen_interpolation] at hr
      obtain ⟨i, _, rfl⟩ := List.mem_map.mp hr
      rw [List.length_map, List.length_range, hN6]
    · have hcell : cell (thiessen_interpolation exampleGrid3 2) 5 5
          = cell exampleGrid3 (thiessenIdx exampleGrid3.length 2 5).toNat
              (thiessenIdx (gridCols exampleGrid3) 2 5).toNat := by
        simp only [cell, thiessen_interpolation]
        rw [getD_map_range _ _ (by rw [hM6]; norm_num),
          getD_map_range _ _ (by rw [hN6]; norm_num)]
      rw [hcell]
      have hidx : (thiessenIdx exampleGrid3.length 2 5).toNat = 2 := by
        norm_num [thiessenIdx, pyRound, exampleGrid3]
        rfl
      have hidx2 : (thiessenIdx (gridCols exampleGrid3) 2 5).toNat = 2 := by
        norm_num [thiessenIdx, pyRound, gridCols, exampleGrid3]
        rfl
      rw [hidx, hidx2]
      rfl

theorem C7_witness :
    (0 ≤ thiessenIdx 3 2 5 ∧ thiessenIdx 3 2 5 ≤ (3 : ℤ) - 1) ∧
      (0 ≤ bilinearIdx0 2 5 ∧ bilinearIdx0 2 5 ≤ (3 : ℤ) - 1) ∧
      (0 ≤ bilinearIdx1 3 2 5 ∧ bilinearIdx1 3 2 5 ≤ (3 : ℤ) - 1) :=
  C7_boundary_safety.1 3 2 5 (by norm_num) (by norm_num [pyInt])

/-- C8: in bilinear_interpolation, if any of the four corner cells selected
for an output cell is the missing sentinel, that output cell is the missing
sentinel, regardless of the corner's weight (NaN propagation through the
weighted sum). -/
theorem C8_bilinear_nan_propagation (Z : Grid) (factor : ℚ) (i_out j_out : ℕ)
    (hi : i_out < (pyInt ((Z.length : ℚ) * factor)).toNat)
    (hj : j_out < (pyInt ((gridCols Z : ℚ) * factor)).toNat)
    (hcorner :
      cell Z (bilinearIdx0 factor i_out).toNat (bilinearIdx0 factor j_out).toNat = none ∨
      cell Z (bilinearIdx1 Z.length factor i_out).toNat
        (bilinearIdx0 factor j_out).toNat = none ∨
      cell Z (bilinearIdx0 factor i_out).toNat
        (bilinearIdx1 (gridCols Z) factor j_out).toNat = none ∨
      cell Z (bilinearIdx1 Z.length factor i_out).toNat
        (bilinearIdx1 (gridCols Z) factor j_out).toNat = none) :
    cell (bilinear_interpolation Z factor) i_out j_out = none := by
  have hcell : cell (bilinear_interpolation Z factor) i_out j_out
      = bilinearCell Z factor i_out j_out := by
    simp only [cell, bilinear_interpolation]
    rw [getD_map_range _ _ hi, getD_map_range _ _ hj]
  rw [hcell]
  simp only [bilinearCell]
  rcases hcorner with h | h | h | h <;>
    rw [h] <;>
    simp [addCell_none_left, addCell_none_right, wmulCell_none]

theorem C8_witness :
    cell (bilinear_interpolation exampleGrid 1) 0 1 = none := by
  have h0 : (bilinearIdx0 (1 : ℚ) 0).toNat = 0 := by norm_num [bilinearIdx0]
  have h1 : (bilinearIdx0 (1 : ℚ) 1).toNat = 1 := by norm_num [bilinearIdx0]
  exact C8_bilinear_nan_propagation exampleGrid 1 0 1
    (by norm_num [pyInt, exampleGrid])
    (by norm_num [pyInt, gridCols, exampleGrid])
    (Or.inl (by rw [h0, h1]; rfl))

/-- C1: on the grid [[1, NaN], [3, 4]] with k = 3 and power = 2, IDW gap
filling replaces the single missing cell (0,1) by the inverse-squared-
distance weighted average of all 3 known cells (weights 1, 0.5, 1 for
distances 1, sqrt 2, 1), i.e. (1*1 + 3*0.5 + 4*1) / 2.5 = 2.6 = 13/5 in
exact arithmetic, and leaves all other cells unchanged. -/
theorem C1_idw_scenario :
    idw_interpolation exampleGrid 3 2
      = Except.ok [[some 1, some ((13 : ℝ) / 5)], [some 3, some 4]] := by
  have hknown : knownCells exampleGrid = [(0, 0), (1, 0), (1, 1)] := by decide
  have hsort : sortNear (0, 1) [(0, 0), (1, 0), (1, 1)] = [(0, 0), (1, 1), (1, 0)] := by
    norm_num [sortNear, insertNear, sqdist]
  have hnbrs : (sortNear (0, 1) (knownCells exampleGrid)).take
      (min 3 (knownCells exampleGrid).length) = [(0, 0), (1, 1), (1, 0)] := by
    rw [hknown, hsort]
    decide
  have hs1 : ((sqdist (0, 0) (0, 1) : ℚ) : ℝ) = 1 := by norm_num [sqdist]
  have hs2 : ((sqdist (1, 1) (0, 1) : ℚ) : ℝ) = 1 := by norm_num [sqdist]
  have hs3 : ((sqdist (1, 0) (0, 1) : ℚ) : ℝ) = 2 := by norm_num [sqdist]
  have hmax1 : max (Real.sqrt 1) ((1 : ℝ) / 10 ^ 12) = 1 := by
    rw [Real.sqrt_one]
    exact max_eq_left (by norm_num)
  have hsqrt2 : (1 : ℝ) ≤ Real.sqrt 2 := by
    rw [show (1 : ℝ) = Real.sqrt 1 from Real.sqrt_one.symm]
    exact Real.sqrt_le_sqrt (by norm_num)
  have hmax2 : max (Real.sqrt 2) ((1 : ℝ) / 10 ^ 12) = Real.sqrt 2 :=
    max_eq_left (le_trans (by norm_num) hsqrt2)
  have hrpow2 : Real.sqrt 2 ^ (2 : ℝ) = 2 := by
    rw [show (2 : ℝ) = ((2 : ℕ) : ℝ) by norm_num, Real.rpow_natCast]
    exact Real.sq_sqrt (by norm_num)
  have hrpow1 : (1 : ℝ) ^ (2 : ℝ) = 1 := Real.one_rpow _
  have hc1 : (cell exampleGrid 0 0).getD 0 = 1 := rfl
  have hc2 : (cell exampleGrid 1 1).getD 0 = 4 := rfl
  have hc3 : (cell exampleGrid 1 0).getD 0 = 3 := rfl
  have hest : idwEstimate exampleGrid 3 2 (0, 1) = 13 / 5 := by
    simp only [idwEstimate]
    rw [hnbrs]
    simp only [List.map_cons, List.map_nil, List.zipWith_cons_cons, List.zipWith_nil_left,
      List.sum_cons, List.sum_nil]
    rw [hs1, hs2, hs3, hmax1, hmax2, hrpow1, hrpow2, hc1, hc2, hc3]
    norm_num
  have hne : ¬(knownCells exampleGrid = []) := by
    rw [hknown]
    simp
  have hguard : ¬(min 3 (knownCells exampleGrid).length ≤ 1 ∧ hasMissing exampleGrid) := by
    decide
  have hfill : idwFill exampleGrid 3 2
      = [[some 1, some (idwEstimate exampleGrid 3 2 (0, 1))], [some 3, some 4]] := rfl
  rw [idw_interpolation, if_neg hne, if_neg hguard, hfill, hest]

lemma setCell_rows {Z : Grid} {n : ℕ} (h : ∀ r ∈ Z, r.length = n) (i j : ℕ) (v : Option ℝ) :
    ∀ r ∈ setCell Z i j v, r.length = n := by
  intro r hr
  unfold setCell at hr
  by_cases hl : i < Z.length
  · rcases List.mem_or_eq_of_mem_set hr with h' | h'
    · exact h r h'
    · rw [h', List.length_set]
      exact h _ (by rw [List.getD_eq_getElem _ _ hl]; exact List.getElem_mem _)
  · rw [List.set_eq_of_length_le (le_of_not_lt hl)] at hr
    exact h r hr

lemma assembleLoop_length (xs ys : List ℚ) :
    ∀ (samples : List (ℚ × ℚ × ℝ)) (G : Grid),
      (samples.foldl (fun Z s =>
        setCell Z (sampleTarget xs ys s).1 (sampleTarget xs ys s).2 (some s.2.2)) G).length
        = G.length := by
  intro samples
  induction samples with
  | nil => intro G; rfl
  | cons s ss ih =>
    intro G
    rw [List.foldl_cons, ih, length_setCell]

lemma assembleLoop_rows (xs ys : List ℚ) :
    ∀ (samples : List (ℚ × ℚ × ℝ)) (G : Grid), (∀ r ∈ G, r.length = xs.length) →
      ∀ r ∈ samples.foldl (fun Z s =>
          setCell Z (sampleTarget xs ys s).1 (sampleTarget xs ys s).2 (some s.2.2)) G,
        r.length = xs.length := by
  intro samples
  induction samples with
  | nil => intro G h; exact h
  | cons s ss ih =>
    intro G h
    rw [List.foldl_cons]
    exact ih _ (setCell_rows h _ _ _)

lemma assembleLoop_cell (xs ys : List ℚ) :
    ∀ (samples : List (ℚ × ℚ × ℝ)) (G : Grid), G.length = ys.length →
      (∀ r ∈ G, r.length = xs.length) →
      ∀ i j : ℕ, i < ys.length → j < xs.length →
        cell (samples.foldl (fun Z s =>
            setCell Z (sampleTarget xs ys s).1 (sampleTarget xs ys s).2 (some s.2.2)) G) i j
          = samples.foldl (fun acc s =>
              if sampleTarget xs ys s = (i, j) then some s.2.2 else acc) (cell G i j) := by
  intro samples
  induction samples with
  | nil =>
    intro G _ _ i j _ _
    rfl
  | cons s ss ih =>
    intro G hG hrows i j hi hj
    rw [List.foldl_cons, List.foldl_cons]
    have hiG : i < G.length := by rw [hG]; exact hi
    have hrowlen : (G.getD i []).length = xs.length :=
      hrows _ (by rw [List.getD_eq_getElem _ _ hiG]; exact List.getElem_mem _)
    have hstep : cell (setCell G (sampleTarget xs ys s).1 (sampleTarget xs ys s).2
        (some s.2.2)) i j
        = if sampleTarget xs ys s = (i, j) then some s.2.2 else cell G i j := by
      by_cases ht : sampleTarget xs ys s = (i, j)
      · rw [if_pos ht, ht]
        exact cell_setCell_self _ _ hiG (by rw [hrowlen]; exact hj)
      · rw [if_neg ht]
        exact cell_setCell_ne _ _ (by rwa [Prod.mk.eta])
    rw [ih _ (by rw [length_setCell]; exact hG) (setCell_rows hrows _ _ _) i j hi hj, hstep]

lemma cell_replicate (ny nx : ℕ) {i j : ℕ} (hi : i < ny) (hj : j < nx) :
    cell (List.replicate ny (List.replicate nx (none : Option ℝ))) i j = none := by
  have h1 : (List.replicate ny (List.replicate nx (none : Option ℝ))).getD i []
      = List.replicate nx none := by
    rw [List.getD_eq_getElem _ _ (by rw [List.length_replicate]; exact hi),
      List.getElem_replicate]
  rw [cell, h1, List.getD_eq_getElem _ _ (by rw [List.length_replicate]; exact hj),
    List.getElem_replicate]

/-- C9: grid assembly produces axes that are exactly the distinct x- and
y-values of the input samples in strictly ascending order, and every cell
(i, j) of the assembled grid holds the value of the last-processed sample
mapping to (i, j) (last-write-wins for duplicates), or the missing
sentinel when no sample maps there. -/
theorem C9_grid_assembly (samples : List (ℚ × ℚ × ℝ)) :
    ((shapefile_to_grid samples).2.1.Sorted (· < ·) ∧
      (shapefile_to_grid samples).2.2.Sorted (· < ·)) ∧
    ((∀ v : ℚ, v ∈ (shapefile_to_grid samples).2.1 ↔ v ∈ samples.map fun s => s.1) ∧
      (∀ v : ℚ, v ∈ (shapefile_to_grid samples).2.2 ↔ v ∈ samples.map fun s => s.2.1)) ∧
    (shapefile_to_grid samples).1.length = (shapefile_to_grid samples).2.2.length ∧
    (∀ r ∈ (shapefile_to_grid samples).1,
      r.length = (shapefile_to_grid samples).2.1.length) ∧
    (∀ i j : ℕ, i < (shapefile_to_grid samples).2.2.length →
      j < (shapefile_to_grid samples).2.1.length →
      cell (shapefile_to_grid samples).1 i j
        = lastWriteAt (shapefile_to_grid samples).2.1 (shapefile_to_grid samples).2.2
            samples i j) := by
  have hxs : (shapefile_to_grid samples).2.1
      = sortedUnique (samples.map fun s => s.1) := rfl
  have hys : (shapefile_to_grid samples).2.2
      = sortedUnique (samples.map fun s => s.2.1) := rfl
  have hZ : (shapefile_to_grid samples).1
      = samples.foldl (fun Z s =>
          setCell Z (sampleTarget (sortedUnique (samples.map fun s => s.1))
              (sortedUnique (samples.map fun s => s.2.1)) s).1
            (sampleTarget (sortedUnique (samples.map fun s => s.1))
              (sortedUnique (samples.map fun s => s.2.1)) s).2 (some s.2.2))
          (List.replicate (sortedUnique (samples.map fun s => s.2.1)).length
            (List.replicate (sortedUnique (samples.map fun s => s.1)).length none)) := rfl
  have hrows0 : ∀ r ∈ List.replicate (sortedUnique (samples.map fun s => s.2.1)).length
      (List.replicate (sortedUnique (samples.map fun s => s.1)).length (none : Option ℝ)),
      r.length = (sortedUnique (samples.map fun s => s.1)).length := by
    intro r hr
    rw [List.eq_of_mem_replicate hr, List.length_replicate]
  refine ⟨⟨?_, ?_⟩, ⟨?_, ?_⟩, ?_, ?_, ?_⟩
  · rw [hxs]
    exact Finset.sort_sorted_lt _
  · rw [hys]
    exact Finset.sort_sorted_lt _
  · intro v
    rw [hxs]
    simp [sortedUnique]
  · intro v
    rw [hys]
    simp [sortedUnique]
  · rw [hZ, hys, assembleLoop_length, List.length_replicate]
  · intro r hr
    rw [hZ] at hr
    rw [hxs]
    exact assembleLoop_rows _ _ samples _ hrows0 r hr
  · intro i j hi hj
    rw [hys] at hi
    rw [hxs] at hj
    rw [hZ, hxs, hys,
      assembleLoop_cell _ _ samples _ (List.length_replicate _ _) hrows0 i j hi hj,
      cell_replicate _ _ hi hj]
    rfl

theorem C9_witness :
    cell (shapefile_to_grid [((2 : ℚ), (7 : ℚ), (5 : ℝ)), (2, 7, 9)]).1 0 0
      = lastWriteAt (shapefile_to_grid [((2 : ℚ), (7 : ℚ), (5 : ℝ)), (2, 7, 9)]).2.1
          (shapefile_to_grid [((2 : ℚ), (7 : ℚ), (5 : ℝ)), (2, 7, 9)]).2.2
          [((2 : ℚ), (7 : ℚ), (5 : ℝ)), (2, 7, 9)] 0 0 := by
  have hy : (shapefile_to_grid [((2 : ℚ), (7 : ℚ), (5 : ℝ)), (2, 7, 9)]).2.2 = [7] := by
    show sortedUnique [7, 7] = [7]
    rw [sortedUnique, show ([(7 : ℚ), 7].toFinset) = {7} by simp]
    exact Finset.sort_singleton _ _
  have hx : (shapefile_to_grid [((2 : ℚ), (7 : ℚ), (5 : ℝ)), (2, 7, 9)]).2.1 = [2] := by
    show sortedUnique [2, 2] = [2]
    rw [sortedUnique, show ([(2 : ℚ), 2].toFinset) = {2} by simp]
    exact Finset.sort_singleton _ _
  exact (C9_grid_assembly _).2.2.2.2 0 0 (by rw [hy]; norm_num) (by rw [hx]; norm_num)
